import Mathlib

/-!
# Y86-64 instruction-level simulator: memory access, fetch/decode, execution units

Shallow embedding of `fetchInstruction.c`, `executeAluOperation.c`,
`executeSimpleOperation.c` and `executeStackOperation.c`.

Conventions of the embedding
* `uint64_t` and `uint8_t` values are natural numbers; every arithmetic
  operation that can leave the range is followed by an explicit `% 2 ^ 64`.
* A C function returning `int` used as a truth value returns `Bool`
  (`true` for 1, `false` for 0).  A function with an out-parameter `*value`
  that it writes only on success returns an `Option`.
* `state->programMap` is a function from addresses to bytes: the buffer is the
  addresses below `programSize`, and the value at an address at or beyond
  `programSize` stands for whatever the process holds past the end of the
  buffer (the C code can index there when its bounds check lets it through).
* `memReadQuadLE` and `memWriteQuadLE` are defined three times in the sources
  (once per execution unit, and `memReadQuadLE` once more in the fetch unit)
  with identical bodies; they are embedded once.
-/

namespace Y86

/-! ## Data model -/

/-- The machine state `machine_state_t`: memory image and its declared size,
program counter, register file and condition codes. -/
structure machine_state_t where
  programMap : Nat → Nat
  programSize : Nat
  programCounter : Nat
  registerFile : Nat → Nat
  conditionCodes : Nat

/-- The decoded instruction `y86_instruction_t`. -/
structure y86_instruction_t where
  icode : Nat
  ifun : Nat
  rA : Nat
  rB : Nat
  valC : Nat
  location : Nat
  valP : Nat

/-- Representation invariant of a machine state: bytes are below 256, 64-bit
fields are below `2 ^ 64`, and the memory buffer ends at least eight bytes
before the top of the 64-bit address space (no C object reaches it). -/
structure machine_state_t.WF (s : machine_state_t) : Prop where
  size_lt : s.programSize + 8 < 2 ^ 64
  byte_lt : ∀ a, s.programMap a < 256
  pc_lt : s.programCounter < 2 ^ 64
  reg_lt : ∀ r, s.registerFile r < 2 ^ 64

/-- Values declared in `instruction.h` that the sources use by name only and
whose numbers the sources do not fix: the two decode-failure codes, the two
condition-code masks and the index of the stack-pointer register. -/
structure header_t where
  I_INVALID : Nat
  I_TOO_SHORT : Nat
  CC_ZERO_MASK : Nat
  CC_SIGN_MASK : Nat
  R_RSP : Nat

/-- Modelled from the spec: `instruction.h` is not among the sources; the
opcode families carry the numbers of the decode table, halt being nibble 0. -/
def I_HALT : Nat := 0x0
/-- Modelled from the spec: `instruction.h` is not among the sources; no-op is
the second row of the decode table. -/
def I_NOP : Nat := 0x1
/-- Modelled from the spec: `instruction.h` is not among the sources;
register-move is the third row of the decode table. -/
def I_RRMVXX : Nat := 0x2
/-- Modelled from the spec: `instruction.h` is not among the sources;
immediate-load is the fourth row of the decode table. -/
def I_IRMOVQ : Nat := 0x3
/-- Modelled from the spec: `instruction.h` is not among the sources;
memory-store is the fifth row of the decode table. -/
def I_RMMOVQ : Nat := 0x4
/-- Modelled from the spec: `instruction.h` is not among the sources;
memory-load is the sixth row of the decode table. -/
def I_MRMOVQ : Nat := 0x5
/-- Modelled from the spec: `instruction.h` is not among the sources;
arithmetic/logic is nibble 6. -/
def I_OPQ : Nat := 0x6
/-- Modelled from the spec: `instruction.h` is not among the sources;
conditional-jump is nibble 7. -/
def I_JXX : Nat := 0x7
/-- Modelled from the spec: `instruction.h` is not among the sources; call is
the ninth row of the decode table. -/
def I_CALL : Nat := 0x8
/-- Modelled from the spec: `instruction.h` is not among the sources; return is
the tenth row of the decode table. -/
def I_RET : Nat := 0x9
/-- Modelled from the spec: `instruction.h` is not among the sources; push is
the eleventh row of the decode table. -/
def I_PUSHQ : Nat := 0xA
/-- Modelled from the spec: `instruction.h` is not among the sources; pop is
the twelfth row of the decode table. -/
def I_POPQ : Nat := 0xB
/-- Modelled from the spec: `instruction.h` is not among the sources; the
"no register" designator is `0xF`. -/
def R_NONE : Nat := 0xF

/-! ## Memory access -/

/-- `memReadByte` of `fetchInstruction.c`.  The test `address < 0` of the
source is on an unsigned value and never holds. -/
def memReadByte (state : machine_state_t) (address : Nat) : Option Nat :=
  if address < 0 ∨ address > state.programSize then
    none
  else
    some (state.programMap address)

/-- The conversion `(uint64_t)currbyte` of a byte held in an `int8_t`:
bytes from 128 up are negative as `int8_t` and sign-extend to 64 bits. -/
def int8ToU64 (b : Nat) : Nat :=
  if b % 256 < 128 then b % 256 else 2 ^ 64 - 256 + b % 256

/-- One iteration of the loop of `memReadQuadLE`:
`*value |= ((uint64_t)currbyte) << (8*i)` with `int8_t currbyte`. -/
def memReadQuadLE_step (state : machine_state_t) (address : Nat)
    (value : Nat) (i : Nat) : Nat :=
  let currbyte := state.programMap ((address + i) % 2 ^ 64)
  value ||| ((int8ToU64 currbyte <<< (8 * i)) % 2 ^ 64)

/-- `memReadQuadLE`. -/
def memReadQuadLE (state : machine_state_t) (address : Nat) : Option Nat :=
  if address < 0 ∨ address > state.programSize
      ∨ (address + 8) % 2 ^ 64 > state.programSize then
    none
  else
    some ((List.range 8).foldl (memReadQuadLE_step state address) 0)

/-- One iteration of the loop of `memWriteQuadLE`:
`state->programMap[address+i] = 0xFF & (value>>(8*i))`. -/
def memWriteQuadLE_step (address value : Nat) (programMap : Nat → Nat)
    (i : Nat) : Nat → Nat :=
  Function.update programMap ((address + i) % 2 ^ 64) (0xFF &&& (value >>> (8 * i)))

/-- `memWriteQuadLE`: the status and the state after the call. -/
def memWriteQuadLE (state : machine_state_t) (address value : Nat) :
    Bool × machine_state_t :=
  if address < 0 ∨ address > state.programSize
      ∨ (address + 8) % 2 ^ 64 > state.programSize then
    (false, state)
  else
    (true, { state with
      programMap := (List.range 8).foldl (memWriteQuadLE_step address value)
        state.programMap })

/-! ## Fetch / decode -/

/-- `fetchInstruction`: the status, the machine state after the call and the
contents of `*instr` after the call.  The second argument is what `*instr`
holds on entry: the source assigns its fields one by one and leaves the
others as they were. -/
def fetchInstruction (h : header_t) (state : machine_state_t)
    (instr : y86_instruction_t) : Bool × machine_state_t × y86_instruction_t :=
  match memReadByte state state.programCounter with
  | none => (false, state, instr)
  | some OPFUN =>
    let OP := (OPFUN &&& 0xF0) >>> 4
    let FUN := OPFUN &&& 0x0F
    if OP = I_HALT then
      (false, state, { instr with
        icode := I_HALT, ifun := FUN, location := state.programCounter,
        valP := (state.programCounter + 1) % 2 ^ 64 })
    else if OP = I_NOP then
      (true, state, { instr with
        icode := I_NOP, ifun := FUN, location := state.programCounter,
        valP := (state.programCounter + 1) % 2 ^ 64 })
    else if OP = I_RRMVXX then
      let instr := { instr with icode := I_RRMVXX, ifun := FUN }
      match memReadByte state ((state.programCounter + 1) % 2 ^ 64) with
      | none => (false, state, { instr with icode := h.I_TOO_SHORT })
      | some REG =>
        let instr := { instr with rA := REG >>> 4, rB := REG &&& 0x0F }
        match memReadQuadLE state ((state.programCounter + 2) % 2 ^ 64) with
        | none => (false, state, { instr with icode := h.I_TOO_SHORT })
        | some DATA =>
          (true, state, { instr with
            valC := DATA, location := state.programCounter,
            valP := (state.programCounter + 10) % 2 ^ 64 })
    else if OP = I_IRMOVQ then
      let instr := { instr with icode := I_IRMOVQ, ifun := FUN }
      match memReadByte state ((state.programCounter + 1) % 2 ^ 64) with
      | none => (false, state, { instr with icode := h.I_TOO_SHORT })
      | some REG =>
        let instr := { instr with rA := R_NONE, rB := REG &&& R_NONE }
        match memReadQuadLE state ((state.programCounter + 2) % 2 ^ 64) with
        | none => (false, state, { instr with icode := h.I_TOO_SHORT })
        | some DATA =>
          (true, state, { instr with
            valC := DATA, location := state.programCounter,
            valP := (state.programCounter + 10) % 2 ^ 64 })
    else if OP = I_RMMOVQ then
      let instr := { instr with icode := I_RMMOVQ, ifun := FUN }
      match memReadByte state ((state.programCounter + 1) % 2 ^ 64) with
      | none => (false, state, { instr with icode := h.I_TOO_SHORT })
      | some REG =>
        let instr := { instr with rA := REG >>> 4, rB := REG &&& 0x0F }
        match memReadQuadLE state ((state.programCounter + 2) % 2 ^ 64) with
        | none => (false, state, { instr with icode := h.I_TOO_SHORT })
        | some DATA =>
          (true, state, { instr with
            valC := DATA, location := state.programCounter,
            valP := (state.programCounter + 10) % 2 ^ 64 })
    else if OP = I_MRMOVQ then
      let instr := { instr with icode := I_MRMOVQ, ifun := FUN }
      match memReadByte state ((state.programCounter + 1) % 2 ^ 64) with
      | none => (false, state, { instr with icode := h.I_TOO_SHORT })
      | some REG =>
        let instr := { instr with rA := REG >>> 4, rB := REG &&& 0x0F }
        match memReadQuadLE state ((state.programCounter + 2) % 2 ^ 64) with
        | none => (false, state, { instr with icode := h.I_TOO_SHORT })
        | some DATA =>
          (true, state, { instr with
            valC := DATA, location := state.programCounter,
            valP := (state.programCounter + 10) % 2 ^ 64 })
    else if OP = I_OPQ then
      if FUN ≥ 0x0 ∧ FUN ≤ 0x6 then
        let instr := { instr with icode := I_OPQ, ifun := FUN }
        match memReadByte state ((state.programCounter + 1) % 2 ^ 64) with
        | none => (false, state, { instr with icode := h.I_TOO_SHORT })
        | some REG =>
          (true, state, { instr with
            rA := REG >>> 4, rB := REG &&& 0x0F, location := state.programCounter,
            valP := (state.programCounter + 2) % 2 ^ 64 })
      else
        (false, state, { instr with icode := h.I_INVALID })
    else if OP = I_JXX then
      if FUN ≥ 0x0 ∧ FUN ≤ 0x6 then
        let instr := { instr with icode := I_JXX, ifun := FUN }
        match memReadQuadLE state ((state.programCounter + 1) % 2 ^ 64) with
        | none => (false, state, { instr with icode := h.I_TOO_SHORT })
        | some DATA =>
          (true, state, { instr with
            valC := DATA, location := state.programCounter,
            valP := (state.programCounter + 9) % 2 ^ 64 })
      else
        (false, state, { instr with icode := h.I_INVALID })
    else if OP = I_CALL then
      let instr := { instr with icode := I_CALL, ifun := FUN }
      match memReadQuadLE state ((state.programCounter + 1) % 2 ^ 64) with
      | none => (false, state, { instr with icode := h.I_TOO_SHORT })
      | some DATA =>
        (true, state, { instr with
          valC := DATA, location := state.programCounter,
          valP := (state.programCounter + 9) % 2 ^ 64 })
    else if OP = I_RET then
      (true, state, { instr with
        icode := I_RET, ifun := FUN, location := state.programCounter,
        valP := (state.programCounter + 1) % 2 ^ 64 })
    else if OP = I_PUSHQ then
      let instr := { instr with icode := I_PUSHQ, ifun := FUN }
      match memReadByte state ((state.programCounter + 1) % 2 ^ 64) with
      | none => (false, state, { instr with icode := h.I_TOO_SHORT })
      | some REG =>
        (true, state, { instr with
          rA := REG >>> 4, rB := 0x0F, location := state.programCounter,
          valP := (state.programCounter + 2) % 2 ^ 64 })
    else if OP = I_POPQ then
      let instr := { instr with icode := I_POPQ, ifun := FUN }
      match memReadByte state ((state.programCounter + 1) % 2 ^ 64) with
      | none => (false, state, { instr with icode := h.I_TOO_SHORT })
      | some REG =>
        (true, state, { instr with
          rA := REG >>> 4, rB := 0x0F, location := state.programCounter,
          valP := (state.programCounter + 2) % 2 ^ 64 })
    else
      (false, state, instr)

/-! ## Arithmetic unit -/

/-- `executeAluOperation`: the status and the state after the call.  The tests
`result < 0` of the source are on a `uint64_t` and never hold.  `valb - vala`
is the difference modulo `2 ^ 64` of two values below `2 ^ 64`.  Division and
remainder by zero are undefined in C; here they take the values of the
natural-number operations, and no theorem below relies on them. -/
def executeAluOperation (h : header_t) (state : machine_state_t)
    (instr : y86_instruction_t) : Bool × machine_state_t :=
  let vala := state.registerFile instr.rA
  let valb := state.registerFile instr.rB
  let state := { state with conditionCodes := 0x0 }
  match instr.ifun with
  | 0x0 =>
    let result := (valb + vala) % 2 ^ 64
    let state :=
      if result = 0 then { state with conditionCodes := h.CC_ZERO_MASK }
      else if result >>> 63 = 1 then { state with conditionCodes := h.CC_SIGN_MASK }
      else state
    (true, { state with
      registerFile := Function.update state.registerFile instr.rB result,
      programCounter := instr.valP })
  | 0x1 =>
    let result := (valb + 2 ^ 64 - vala) % 2 ^ 64
    let state :=
      if result = 0 then { state with conditionCodes := h.CC_ZERO_MASK }
      else if result >>> 63 = 1 then { state with conditionCodes := h.CC_SIGN_MASK }
      else state
    (true, { state with
      registerFile := Function.update state.registerFile instr.rB result,
      programCounter := instr.valP })
  | 0x2 =>
    let result := valb &&& vala
    let state :=
      if result = 0 then
        { state with conditionCodes := state.conditionCodes ||| h.CC_ZERO_MASK }
      else if result < 0 then
        { state with conditionCodes := state.conditionCodes ||| h.CC_ZERO_MASK }
      else { state with conditionCodes := 0 ||| 0 }
    (true, { state with
      registerFile := Function.update state.registerFile instr.rB result,
      programCounter := instr.valP })
  | 0x3 =>
    let result := valb ^^^ vala
    let state :=
      if result = 0 then
        { state with conditionCodes := state.conditionCodes ||| h.CC_ZERO_MASK }
      else if result < 0 then
        { state with conditionCodes := state.conditionCodes ||| h.CC_ZERO_MASK }
      else { state with conditionCodes := 0 ||| 0 }
    (true, { state with
      registerFile := Function.update state.registerFile instr.rB result,
      programCounter := instr.valP })
  | 0x4 =>
    let result := (valb * vala) % 2 ^ 64
    let state :=
      if result = 0 then
        { state with conditionCodes := state.conditionCodes ||| h.CC_ZERO_MASK }
      else if result < 0 then
        { state with conditionCodes := state.conditionCodes ||| h.CC_ZERO_MASK }
      else { state with conditionCodes := 0 ||| 0 }
    (true, { state with
      registerFile := Function.update state.registerFile instr.rB result,
      programCounter := instr.valP })
  | 0x5 =>
    let result := valb / vala
    let state :=
      if result = 0 then
        { state with conditionCodes := state.conditionCodes ||| h.CC_ZERO_MASK }
      else if result < 0 then
        { state with conditionCodes := state.conditionCodes ||| h.CC_ZERO_MASK }
      else { state with conditionCodes := 0 ||| 0 }
    (true, { state with
      registerFile := Function.update state.registerFile instr.rB result,
      programCounter := instr.valP })
  | 0x6 =>
    let result := valb % vala
    let state :=
      if result = 0 then
        { state with conditionCodes := state.conditionCodes ||| h.CC_ZERO_MASK }
      else if result < 0 then
        { state with conditionCodes := state.conditionCodes ||| h.CC_ZERO_MASK }
      else { state with conditionCodes := state.conditionCodes ||| h.CC_ZERO_MASK }
    (true, { state with
      registerFile := Function.update state.registerFile instr.rB result,
      programCounter := instr.valP })
  | _ => (false, state)

/-! ## Simple-operation unit -/

/-- `executeSimpleOperation`: the status and the state after the call. -/
def executeSimpleOperation (h : header_t) (state : machine_state_t)
    (instr : y86_instruction_t) : Bool × machine_state_t :=
  if instr.icode = h.I_INVALID ∨ instr.icode = h.I_TOO_SHORT then
    (false, state)
  else if instr.icode = I_HALT then
    (true, state)
  else if instr.icode = I_NOP then
    (true, { state with programCounter := instr.valP })
  else if instr.icode = I_IRMOVQ then
    let state := { state with programCounter := instr.valP }
    (true, { state with
      registerFile := Function.update state.registerFile instr.rB instr.valC })
  else if instr.icode = I_RMMOVQ then
    let OFFSET := instr.valC
    let M_ADDRESS := state.registerFile instr.rB
    let DATA := state.registerFile instr.rA
    match memWriteQuadLE state ((M_ADDRESS + OFFSET) % 2 ^ 64) DATA with
    | (false, state) => (false, state)
    | (true, state) => (true, { state with programCounter := instr.valP })
  else if instr.icode = I_MRMOVQ then
    let OFFSET := instr.valC
    let M_ADDRESS := state.registerFile instr.rB
    match memReadQuadLE state ((M_ADDRESS + OFFSET) % 2 ^ 64) with
    | none => (false, state)
    | some DATA =>
      (true, { state with
        registerFile := Function.update state.registerFile instr.rA DATA,
        programCounter := instr.valP })
  else
    (false, state)

/-! ## Stack unit -/

/-- `executeStackOperation`: the status and the state after the call.
`S_ADDRESS -= 8` is a subtraction modulo `2 ^ 64`. -/
def executeStackOperation (h : header_t) (state : machine_state_t)
    (instr : y86_instruction_t) : Bool × machine_state_t :=
  if instr.icode = I_CALL then
    let state := { state with programCounter := instr.valP }
    let S_ADDRESS := (state.registerFile h.R_RSP + 2 ^ 64 - 8) % 2 ^ 64
    let state := { state with
      registerFile := Function.update state.registerFile h.R_RSP S_ADDRESS }
    match memWriteQuadLE state S_ADDRESS state.programCounter with
    | (false, state) => (false, state)
    | (true, state) => (true, { state with programCounter := instr.valC })
  else if instr.icode = I_RET then
    let S_ADDRESS := state.registerFile h.R_RSP
    match memReadQuadLE state S_ADDRESS with
    | none => (false, state)
    | some DATA =>
      let S_ADDRESS := (S_ADDRESS + 8) % 2 ^ 64
      (true, { state with
        registerFile := Function.update state.registerFile h.R_RSP S_ADDRESS,
        programCounter := DATA })
  else if instr.icode = I_PUSHQ then
    let S_ADDRESS := (state.registerFile h.R_RSP + 2 ^ 64 - 8) % 2 ^ 64
    let state := { state with
      registerFile := Function.update state.registerFile h.R_RSP S_ADDRESS }
    let DATA := state.registerFile instr.rA
    match memWriteQuadLE state S_ADDRESS DATA with
    | (false, state) => (false, state)
    | (true, state) => (true, { state with programCounter := instr.valP })
  else if instr.icode = I_POPQ then
    let S_ADDRESS := state.registerFile h.R_RSP
    match memReadQuadLE state S_ADDRESS with
    | none => (false, state)
    | some DATA =>
      let state := { state with
        registerFile := Function.update state.registerFile instr.rA DATA }
      let S_ADDRESS := (S_ADDRESS + 8) % 2 ^ 64
      (true, { state with
        registerFile := Function.update state.registerFile h.R_RSP S_ADDRESS,
        programCounter := instr.valP })
  else
    (false, state)

/-! ## Concrete inputs -/

/-- Header values of the usual Y86-64 `instruction.h`, used where a concrete
header is needed. -/
def stdHeader : header_t :=
  { I_INVALID := 0x10, I_TOO_SHORT := 0x11, CC_ZERO_MASK := 0x1,
    CC_SIGN_MASK := 0x2, R_RSP := 4 }

/-- An instruction record with every field zero. -/
def zeroInstr : y86_instruction_t :=
  { icode := 0, ifun := 0, rA := 0, rB := 0, valC := 0, location := 0, valP := 0 }

/-- The unsigned little-endian value of the eight bytes at `a .. a+7`:
the sum over `i` in `0..7` of `memory[a+i] * 256^i`. -/
def quadValueLE (state : machine_state_t) (a : Nat) : Nat :=
  ((List.range 8).map (fun i => state.programMap (a + i) * 256 ^ i)).sum

/-- Total length in bytes of an instruction of each opcode family, as the
decode table of the specification lists it. -/
def tableLength (icode : Nat) : Nat :=
  if icode = I_HALT ∨ icode = I_NOP ∨ icode = I_RET then 1
  else if icode = I_OPQ ∨ icode = I_PUSHQ ∨ icode = I_POPQ then 2
  else if icode = I_JXX ∨ icode = I_CALL then 9
  else if icode = I_RRMVXX ∨ icode = I_IRMOVQ ∨ icode = I_RMMOVQ ∨ icode = I_MRMOVQ then 10
  else 0

/-- A memory image of sixteen zero bytes, all registers zero. -/
def zeroState : machine_state_t :=
  { programMap := fun _ => 0, programSize := 16, programCounter := 0,
    registerFile := fun _ => 0, conditionCodes := 0 }

/-- Sixteen bytes of memory holding `irmovq $0, %rbx` (`30 F3 00 .. 00`) at
address 0. -/
def irmovqState : machine_state_t :=
  { zeroState with programMap := fun a => if a = 0 then 0x30 else if a = 1 then 0xF3 else 0 }

/-- A memory of one byte, `0x60` (the opcode byte of `addq`), with the program
counter on it; the byte after the end of the buffer is `0x12`. -/
def opqAtEndState : machine_state_t :=
  { programMap := fun a => if a = 0 then 0x60 else 0x12, programSize := 1,
    programCounter := 0, registerFile := fun _ => 0, conditionCodes := 0 }

/-- Sixteen bytes of memory whose first byte is `0x67`: arithmetic/logic family
with sub-operation code 7. -/
def badOpqState : machine_state_t :=
  { zeroState with programMap := fun a => if a = 0 then 0x67 else 0 }

/-- The value `B op A` on unsigned 64-bit operands, modulo `2 ^ 64`, with `op`
one of `+ - & ^ * / %` for sub-operation codes 0..6. -/
def aluOp (ifun B A : Nat) : Nat :=
  match ifun with
  | 0 => (B + A) % 2 ^ 64
  | 1 => (((B : Int) - (A : Int)) % 2 ^ 64).toNat
  | 2 => (B &&& A) % 2 ^ 64
  | 3 => (B ^^^ A) % 2 ^ 64
  | 4 => (B * A) % 2 ^ 64
  | 5 => (B / A) % 2 ^ 64
  | 6 => (B % A) % 2 ^ 64
  | _ => 0

/-- Registers `%rax = 3` (register 0) and `%rcx = 5` (register 1), the others
zero, over sixteen zero bytes of memory. -/
def aluState : machine_state_t :=
  { zeroState with registerFile := fun r => if r = 0 then 3 else if r = 1 then 5 else 0 }

/-- The decoded instruction `modq %rax, %rcx` (sub-operation code 6) at
address 0. -/
def modInstr : y86_instruction_t :=
  { icode := I_OPQ, ifun := 6, rA := 0, rB := 1, valC := 0, location := 0, valP := 2 }

/-- Registers 0 and 1 both `0x8000000000000000`, the others zero, over sixteen
zero bytes of memory. -/
def signState : machine_state_t :=
  { zeroState with registerFile := fun r => if r = 0 ∨ r = 1 then 0x8000000000000000 else 0 }

/-- The decoded instruction `andq %rax, %rcx` (sub-operation code 2) at
address 0. -/
def andInstr : y86_instruction_t :=
  { icode := I_OPQ, ifun := 2, rA := 0, rB := 1, valC := 0, location := 0, valP := 2 }

/-- The decoded instruction `addq %rax, %rcx` (sub-operation code 0) at
address 0. -/
def addInstr : y86_instruction_t :=
  { icode := I_OPQ, ifun := 0, rA := 0, rB := 1, valC := 0, location := 0, valP := 2 }

/-- The decoded instruction `subq %rax, %rax` (sub-operation code 1) at
address 0. -/
def subInstr : y86_instruction_t :=
  { icode := I_OPQ, ifun := 1, rA := 0, rB := 0, valC := 0, location := 0, valP := 2 }

/-- Sixteen zero bytes of memory, all registers zero, condition codes `0x1`. -/
def flagState : machine_state_t :=
  { zeroState with conditionCodes := 0x1 }

/-- An arithmetic/logic instruction record with sub-operation code 7. -/
def badAluInstr : y86_instruction_t :=
  { icode := I_OPQ, ifun := 7, rA := 0, rB := 1, valC := 0, location := 0, valP := 2 }

/-- The decoded instruction `halt` at address 0. -/
def haltInstr : y86_instruction_t :=
  { icode := I_HALT, ifun := 0, rA := 0, rB := 0, valC := 0, location := 0, valP := 1 }

/-- Sixteen zero bytes of memory, register 0 holding `0x80`, the others zero. -/
def storeState : machine_state_t :=
  { zeroState with registerFile := fun r => if r = 0 then 0x80 else 0 }

/-- The decoded instruction `rmmovq %rax, 0(%rcx)` at address 0. -/
def rmmovqInstr : y86_instruction_t :=
  { icode := I_RMMOVQ, ifun := 0, rA := 0, rB := 1, valC := 0, location := 0, valP := 10 }

/-- The decoded instruction `mrmovq 0(%rcx), %rdx` at address 10. -/
def mrmovqInstr : y86_instruction_t :=
  { icode := I_MRMOVQ, ifun := 0, rA := 2, rB := 1, valC := 0, location := 10, valP := 20 }

/-- A memory of 1024 zero bytes, register 4 (the stack pointer of `stdHeader`)
holding 1000 and register 0 holding 42. -/
def stackState : machine_state_t :=
  { programMap := fun _ => 0, programSize := 1024, programCounter := 0,
    registerFile := fun r => if r = 4 then 1000 else if r = 0 then 42 else 0,
    conditionCodes := 0 }

/-- The decoded instruction `pushq %rax` at address 0. -/
def pushInstr : y86_instruction_t :=
  { icode := I_PUSHQ, ifun := 0, rA := 0, rB := 0xF, valC := 0, location := 0, valP := 2 }

/-- The decoded instruction `call 0x200` at address 0 (next address 9). -/
def callInstr : y86_instruction_t :=
  { icode := I_CALL, ifun := 0, rA := 0, rB := 0, valC := 0x200, location := 0, valP := 9 }

/-- The decoded instruction `call 0x10` at address `0x77` (next address `0x80`). -/
def callAt77Instr : y86_instruction_t :=
  { icode := I_CALL, ifun := 0, rA := 0, rB := 0, valC := 0x10, location := 0x77,
    valP := 0x80 }

/-- The decoded instruction `ret` at address `0x10`. -/
def retInstr : y86_instruction_t :=
  { icode := I_RET, ifun := 0, rA := 0, rB := 0, valC := 0, location := 0x10, valP := 0x11 }

/-- A memory of 1024 zero bytes with the stack pointer (register 4 of
`stdHeader`) holding 4 and register 0 holding 42. -/
def lowStackState : machine_state_t :=
  { stackState with registerFile := fun r => if r = 4 then 4 else if r = 0 then 42 else 0 }

/-- Sixteen bytes of memory holding `pushq %rdx` (`A0 2F`) at address 0. -/
def pushqState : machine_state_t :=
  { zeroState with programMap := fun a => if a = 0 then 0xA0 else if a = 1 then 0x2F else 0 }

/-- The decoded instruction `pushq %rsp` (source register 4, the stack pointer
of `stdHeader`) at address 0. -/
def pushRspInstr : y86_instruction_t :=
  { icode := I_PUSHQ, ifun := 0, rA := 4, rB := 0xF, valC := 0, location := 0, valP := 2 }

/-- The decoded instruction `popq %rsp` (destination register 4, the stack
pointer of `stdHeader`) at address 0. -/
def popRspInstr : y86_instruction_t :=
  { icode := I_POPQ, ifun := 0, rA := 4, rB := 0xF, valC := 0, location := 0, valP := 2 }

/-- Sixteen bytes of memory, the first one `0x80`, the others zero. -/
def highBitState : machine_state_t :=
  { zeroState with programMap := fun a => if a = 0 then 0x80 else 0 }

/-! ## Memory access: theorems -/

theorem zeroState_WF : zeroState.WF :=
  ⟨by decide, fun _ => by simp [zeroState], by decide, fun _ => by simp [zeroState]⟩

/-- C1 (fails on the code): writing the quadword `0x80` at address 0 of a
sixteen-byte memory succeeds, and the following read at address 0 succeeds but
yields `0xFFFFFFFFFFFFFF80` instead of `0x80`: `memReadQuadLE` holds each byte
in an `int8_t`, so a byte with its top bit set is sign-extended over all the
higher bytes of the result. -/
theorem memWriteQuadLE_memReadQuadLE_high_bit :
    zeroState.programSize = 16 ∧
    (memWriteQuadLE zeroState 0 0x80).1 = true ∧
    memReadQuadLE (memWriteQuadLE zeroState 0 0x80).2 0 = some 0xFFFFFFFFFFFFFF80 := by
  decide

/-- C2: when `a + 8` exceeds the memory size, `memReadQuadLE` fails,
`memWriteQuadLE` fails for every value, and the state after the failed write
(in particular the memory buffer) is the state before it. -/
theorem memQuadLE_out_of_bounds (s : machine_state_t) (a v : Nat)
    (hsize : s.programSize + 8 < 2 ^ 64) (ha : a + 8 > s.programSize) :
    memReadQuadLE s a = none ∧
    (memWriteQuadLE s a v).1 = false ∧
    (memWriteQuadLE s a v).2.programMap = s.programMap ∧
    (memWriteQuadLE s a v).2 = s := by
  have hc : a < 0 ∨ a > s.programSize ∨ (a + 8) % 2 ^ 64 > s.programSize := by
    omega
  unfold memReadQuadLE memWriteQuadLE
  rw [if_pos hc, if_pos hc]
  exact ⟨rfl, rfl, rfl, rfl⟩

theorem memQuadLE_out_of_bounds_witness :
    memReadQuadLE zeroState 9 = none ∧
    (memWriteQuadLE zeroState 9 7).1 = false ∧
    (memWriteQuadLE zeroState 9 7).2.programMap = zeroState.programMap ∧
    (memWriteQuadLE zeroState 9 7).2 = zeroState :=
  memQuadLE_out_of_bounds zeroState 9 7 (by decide) (by decide)

/-- C3 (fails on the code): on a sixteen-byte memory whose first byte is `0x80`
and whose other bytes are zero, the little-endian value of the eight bytes at
address 0 is `0x80`, but `memReadQuadLE` returns `0xFFFFFFFFFFFFFF80`: the
byte is taken as a signed value and sign-extended. -/
theorem memReadQuadLE_sign_extends :
    highBitState.programSize = 16 ∧
    quadValueLE highBitState 0 = 0x80 ∧
    memReadQuadLE highBitState 0 = some 0xFFFFFFFFFFFFFF80 := by
  decide

/-- C4 (fails on the code): at `address == programSize` (here 16) `memReadByte`
does not fail: its test is `address > programSize`, so it returns the byte one
past the end of the buffer. -/
theorem memReadByte_at_programSize :
    zeroState.programSize = 16 ∧
    memReadByte zeroState 16 = some (zeroState.programMap 16) := by
  decide

theorem range_eight : List.range 8 = [0, 1, 2, 3, 4, 5, 6, 7] := by
  decide

theorem memWriteQuadLE_byte (v i : Nat) : 0xFF &&& (v >>> (8 * i)) = v / 256 ^ i % 256 := by
  rw [Nat.and_comm, Nat.shiftRight_eq_div_pow, pow_mul]
  exact Nat.and_pow_two_sub_one_eq_mod _ 8

/-- An in-bounds `memWriteQuadLE` succeeds, stores byte `i` of the value
(least significant first) at `a + i` for `i` in `0..7`, and leaves every
other byte and every other field of the state as it was. -/
theorem memWriteQuadLE_in_bounds (s : machine_state_t) (a v : Nat)
    (hsize : s.programSize + 8 < 2 ^ 64) (ha : a + 8 ≤ s.programSize) :
    memWriteQuadLE s a v =
      (true, { s with
        programMap := fun x =>
          if a ≤ x ∧ x < a + 8 then v / 256 ^ (x - a) % 256 else s.programMap x }) := by
  have hc : ¬ (a < 0 ∨ a > s.programSize ∨ (a + 8) % 2 ^ 64 > s.programSize) := by
    omega
  have hm : ∀ i, i < 8 → (a + i) % 2 ^ 64 = a + i := fun i hi =>
    Nat.mod_eq_of_lt (by omega)
  unfold memWriteQuadLE
  rw [if_neg hc]
  congr 2
  funext x
  simp only [range_eight, List.foldl_cons, List.foldl_nil, memWriteQuadLE_step,
    Function.update_apply, memWriteQuadLE_byte]
  rw [hm 0 (by omega), hm 1 (by omega), hm 2 (by omega), hm 3 (by omega), hm 4 (by omega),
    hm 5 (by omega), hm 6 (by omega), hm 7 (by omega)]
  split_ifs <;> first
    | omega
    | rfl
    | (subst x; simp)

/-! ## Fetch / decode: theorems -/

theorem high_nibble (b : Nat) (hb : b < 256) : (b &&& 0xF0) >>> 4 = b / 16 := by
  interval_cases b <;> rfl

theorem low_nibble (b : Nat) : b &&& 0x0F = b % 16 :=
  Nat.and_pow_two_sub_one_eq_mod b 4

theorem memReadByte_eq_some_iff (s : machine_state_t) (a v : Nat) :
    memReadByte s a = some v ↔ a ≤ s.programSize ∧ s.programMap a = v := by
  unfold memReadByte
  split
  · constructor
    · intro h; cases h
    · intro h; omega
  · simp only [Option.some.injEq]
    constructor
    · intro h; exact ⟨by omega, h⟩
    · intro h; exact h.2

theorem memReadByte_eq_none_iff (s : machine_state_t) (a : Nat) :
    memReadByte s a = none ↔ s.programSize < a := by
  unfold memReadByte
  split
  · constructor
    · intro _; omega
    · intro _; rfl
  · constructor
    · intro h; cases h
    · intro h; omega

theorem memReadQuadLE_eq_some_iff (s : machine_state_t) (a v : Nat) :
    memReadQuadLE s a = some v ↔
      (a ≤ s.programSize ∧ (a + 8) % 2 ^ 64 ≤ s.programSize) ∧
      (List.range 8).foldl (memReadQuadLE_step s a) 0 = v := by
  unfold memReadQuadLE
  split
  · constructor
    · intro h; cases h
    · intro h; omega
  · simp only [Option.some.injEq]
    constructor
    · intro h; exact ⟨by omega, h⟩
    · intro h; exact h.2

theorem memReadQuadLE_eq_none_iff (s : machine_state_t) (a : Nat) :
    memReadQuadLE s a = none ↔
      (s.programSize < a ∨ s.programSize < (a + 8) % 2 ^ 64) := by
  unfold memReadQuadLE
  split
  · constructor
    · intro _; omega
    · intro _; rfl
  · constructor
    · intro h; cases h
    · intro h; omega

/-- C5: when `fetchInstruction` returns 1, the decoded `icode` is the high
nibble and `ifun` the low nibble of the byte at `programCounter`, `location`
is `programCounter`, and `valP` is `programCounter + L` with `L` the length
of the decode table for that family (one of no-op .. pop). -/
theorem fetchInstruction_continue (h : header_t) (s : machine_state_t)
    (instr : y86_instruction_t) (hwf : s.WF)
    (hc : (fetchInstruction h s instr).1 = true) :
    (fetchInstruction h s instr).2.2.icode = s.programMap s.programCounter / 16 ∧
    (fetchInstruction h s instr).2.2.ifun = s.programMap s.programCounter % 16 ∧
    (fetchInstruction h s instr).2.2.location = s.programCounter ∧
    (fetchInstruction h s instr).2.2.valP =
      s.programCounter + tableLength (s.programMap s.programCounter / 16) ∧
    I_NOP ≤ s.programMap s.programCounter / 16 ∧
    s.programMap s.programCounter / 16 ≤ I_POPQ := by
  obtain ⟨hsz, hbyte, hpc, -⟩ := hwf
  unfold fetchInstruction at hc ⊢
  cases hrd : memReadByte s s.programCounter with
  | none => simp [hrd] at hc
  | some OPFUN =>
    obtain ⟨hle, rfl⟩ := (memReadByte_eq_some_iff _ _ _).1 hrd
    rw [hrd] at hc
    simp only [high_nibble _ (hbyte _), low_nibble] at hc ⊢
    have hk : s.programMap s.programCounter / 16 < 16 := by
      have := hbyte s.programCounter
      omega
    generalize s.programMap s.programCounter / 16 = k at hc hk ⊢
    interval_cases k <;>
      simp [I_HALT, I_NOP, I_RRMVXX, I_IRMOVQ, I_RMMOVQ, I_MRMOVQ, I_OPQ, I_JXX, I_CALL,
        I_RET, I_PUSHQ, I_POPQ, tableLength] at hc ⊢
    all_goals try omega
    all_goals (try split at hc) <;> (try split at hc)
    all_goals (try simp at hc)
    all_goals simp only [memReadByte_eq_some_iff, memReadQuadLE_eq_some_iff] at *
    all_goals simp [*]
    all_goals omega


theorem irmovqState_WF : irmovqState.WF :=
  ⟨by decide, fun a => by simp only [irmovqState]; split_ifs <;> omega, by decide,
    fun _ => by simp [irmovqState, zeroState]⟩

theorem badOpqState_WF : badOpqState.WF :=
  ⟨by decide, fun a => by simp only [badOpqState]; split_ifs <;> omega, by decide,
    fun _ => by simp [badOpqState, zeroState]⟩

theorem fetchInstruction_continue_witness :
    irmovqState.WF ∧ (fetchInstruction stdHeader irmovqState zeroInstr).1 = true ∧
    (fetchInstruction stdHeader irmovqState zeroInstr).2.2.icode = 3 ∧
    (fetchInstruction stdHeader irmovqState zeroInstr).2.2.ifun = 0 ∧
    (fetchInstruction stdHeader irmovqState zeroInstr).2.2.location = 0 ∧
    (fetchInstruction stdHeader irmovqState zeroInstr).2.2.valP = 0 + 10 ∧
    1 ≤ 3 ∧ 3 ≤ 11 :=
  ⟨irmovqState_WF, by decide,
    fetchInstruction_continue stdHeader irmovqState zeroInstr irmovqState_WF (by decide)⟩

/-- C6 (fails on the code): with a one-byte memory holding the arithmetic/logic
opcode byte `0x60` at `programCounter = 0`, the instruction (length 2) extends
past the memory size, yet `fetchInstruction` returns 1 with `icode = I_OPQ`
and the register designators taken from the byte past the end of the buffer:
`memReadByte` accepts `address == programSize`. -/
theorem fetchInstruction_truncated_opq (h : header_t) (instr : y86_instruction_t) :
    opqAtEndState.programCounter < opqAtEndState.programSize ∧
    opqAtEndState.programMap opqAtEndState.programCounter / 16 = I_OPQ ∧
    opqAtEndState.programMap opqAtEndState.programCounter % 16 ≤ 6 ∧
    opqAtEndState.programCounter + tableLength I_OPQ > opqAtEndState.programSize ∧
    (fetchInstruction h opqAtEndState instr).1 = true ∧
    (fetchInstruction h opqAtEndState instr).2.2.icode = I_OPQ ∧
    (fetchInstruction h opqAtEndState instr).2.2.rA = 1 ∧
    (fetchInstruction h opqAtEndState instr).2.2.rB = 2 :=
  ⟨by decide, by decide, by decide, by decide, rfl, rfl, rfl, rfl⟩

/-- C7: when the byte read at `programCounter` has high nibble 6
(arithmetic/logic) or 7 (conditional-jump), a low nibble in 7..15 makes
`fetchInstruction` return 0 with `icode = I_INVALID`, and a low nibble in
0..6 leaves `icode` equal to the family code or to `I_TOO_SHORT`, hence never
`I_INVALID` (the failure codes being codes of their own). -/
theorem fetchInstruction_invalid_ifun (h : header_t) (s : machine_state_t)
    (instr : y86_instruction_t) (hwf : s.WF)
    (hrd : memReadByte s s.programCounter = some (s.programMap s.programCounter))
    (hop : s.programMap s.programCounter / 16 = I_OPQ ∨
      s.programMap s.programCounter / 16 = I_JXX)
    (hne : h.I_INVALID ≠ I_OPQ ∧ h.I_INVALID ≠ I_JXX ∧ h.I_INVALID ≠ h.I_TOO_SHORT) :
    (7 ≤ s.programMap s.programCounter % 16 →
      (fetchInstruction h s instr).1 = false ∧
      (fetchInstruction h s instr).2.2.icode = h.I_INVALID) ∧
    (s.programMap s.programCounter % 16 ≤ 6 →
      ((fetchInstruction h s instr).2.2.icode = s.programMap s.programCounter / 16 ∨
        (fetchInstruction h s instr).2.2.icode = h.I_TOO_SHORT) ∧
      (fetchInstruction h s instr).2.2.icode ≠ h.I_INVALID) := by
  obtain ⟨hne1, hne2, hne3⟩ := hne
  have hbyte := hwf.byte_lt s.programCounter
  unfold fetchInstruction
  rw [hrd]
  simp only [high_nibble _ hbyte, low_nibble]
  simp only [I_OPQ, I_JXX] at hne1 hne2 hop
  rcases hop with hop | hop <;> rw [hop] <;>
    simp [I_HALT, I_NOP, I_RRMVXX, I_IRMOVQ, I_RMMOVQ, I_MRMOVQ, I_OPQ, I_JXX]
  all_goals
    constructor
    · intro h7
      rw [if_neg (by omega)]
      exact ⟨rfl, rfl⟩
    · intro h6
      rw [if_pos h6]
      split <;> simp [Ne.symm hne1, Ne.symm hne2, Ne.symm hne3]

theorem fetchInstruction_invalid_ifun_witness :
    badOpqState.WF ∧
    memReadByte badOpqState badOpqState.programCounter =
      some (badOpqState.programMap badOpqState.programCounter) ∧
    (badOpqState.programMap badOpqState.programCounter / 16 = I_OPQ ∨
      badOpqState.programMap badOpqState.programCounter / 16 = I_JXX) ∧
    (stdHeader.I_INVALID ≠ I_OPQ ∧ stdHeader.I_INVALID ≠ I_JXX ∧
      stdHeader.I_INVALID ≠ stdHeader.I_TOO_SHORT) ∧
    7 ≤ badOpqState.programMap badOpqState.programCounter % 16 ∧
    (fetchInstruction stdHeader badOpqState zeroInstr).1 = false ∧
    (fetchInstruction stdHeader badOpqState zeroInstr).2.2.icode = stdHeader.I_INVALID :=
  ⟨badOpqState_WF, by decide, by decide, by decide, by decide,
    (fetchInstruction_invalid_ifun stdHeader badOpqState zeroInstr badOpqState_WF
      (by decide) (by decide) (by decide)).1 (by decide)⟩

/-- C8: when the byte at `programCounter` has high nibble 0 (halt),
`fetchInstruction` returns 0, sets `icode = I_HALT` and
`valP = programCounter + 1`, and the machine state after the call (registers,
memory, condition codes, program counter) is the state before it. -/
theorem fetchInstruction_halt (h : header_t) (s : machine_state_t)
    (instr : y86_instruction_t) (hwf : s.WF)
    (hrd : s.programCounter ≤ s.programSize)
    (hop : s.programMap s.programCounter / 16 = I_HALT) :
    (fetchInstruction h s instr).1 = false ∧
    (fetchInstruction h s instr).2.2.icode = I_HALT ∧
    (fetchInstruction h s instr).2.2.valP = s.programCounter + 1 ∧
    (fetchInstruction h s instr).2.1.registerFile = s.registerFile ∧
    (fetchInstruction h s instr).2.1.programMap = s.programMap ∧
    (fetchInstruction h s instr).2.1.conditionCodes = s.conditionCodes ∧
    (fetchInstruction h s instr).2.1.programCounter = s.programCounter ∧
    (fetchInstruction h s instr).2.1 = s := by
  have hbyte := hwf.byte_lt s.programCounter
  have hpc : (s.programCounter + 1) % 2 ^ 64 = s.programCounter + 1 := by
    have := hwf.size_lt
    omega
  have hrd' : memReadByte s s.programCounter = some (s.programMap s.programCounter) :=
    (memReadByte_eq_some_iff _ _ _).2 ⟨hrd, rfl⟩
  unfold fetchInstruction
  rw [hrd']
  simp only [high_nibble _ hbyte, hop, if_true, hpc, and_self]


theorem fetchInstruction_halt_witness :
    zeroState.WF ∧ zeroState.programCounter ≤ zeroState.programSize ∧
    zeroState.programMap zeroState.programCounter / 16 = I_HALT ∧
    (fetchInstruction stdHeader zeroState zeroInstr).1 = false ∧
    (fetchInstruction stdHeader zeroState zeroInstr).2.2.icode = I_HALT ∧
    (fetchInstruction stdHeader zeroState zeroInstr).2.2.valP = zeroState.programCounter + 1 ∧
    (fetchInstruction stdHeader zeroState zeroInstr).2.1.registerFile = zeroState.registerFile ∧
    (fetchInstruction stdHeader zeroState zeroInstr).2.1.programMap = zeroState.programMap ∧
    (fetchInstruction stdHeader zeroState zeroInstr).2.1.conditionCodes =
      zeroState.conditionCodes ∧
    (fetchInstruction stdHeader zeroState zeroInstr).2.1.programCounter =
      zeroState.programCounter ∧
    (fetchInstruction stdHeader zeroState zeroInstr).2.1 = zeroState :=
  ⟨zeroState_WF, by decide, by decide,
    fetchInstruction_halt stdHeader zeroState zeroInstr zeroState_WF (by decide) (by decide)⟩


/-! ## Arithmetic unit: theorems -/

theorem aluState_WF : aluState.WF :=
  ⟨by decide, fun _ => by simp [aluState, zeroState], by decide,
    fun r => by simp only [aluState]; split_ifs <;> omega⟩

/-- C9: for a sub-operation code in 0..6 (register A non-zero for divide and
modulo) `executeAluOperation` returns 1, register `rB` becomes `B op A` modulo
`2 ^ 64` (`B`, `A` the prior values of `rB`, `rA`), `programCounter` becomes
`valP`, and every other register and all of memory are unchanged. -/
theorem executeAluOperation_result (h : header_t) (s : machine_state_t)
    (i : y86_instruction_t) (hwf : s.WF) (hfun : i.ifun ≤ 6)
    (hdiv : i.ifun = 5 ∨ i.ifun = 6 → s.registerFile i.rA ≠ 0) :
    (executeAluOperation h s i).1 = true ∧
    (executeAluOperation h s i).2.registerFile i.rB =
      aluOp i.ifun (s.registerFile i.rB) (s.registerFile i.rA) ∧
    (executeAluOperation h s i).2.programCounter = i.valP ∧
    (∀ r, r ≠ i.rB → (executeAluOperation h s i).2.registerFile r = s.registerFile r) ∧
    (executeAluOperation h s i).2.programMap = s.programMap ∧
    (executeAluOperation h s i).2.programSize = s.programSize := by
  have hA := hwf.reg_lt i.rA
  have hB := hwf.reg_lt i.rB
  obtain ⟨icode, ifun, rA, rB, valC, location, valP⟩ := i
  simp only at hfun hdiv hA hB ⊢
  interval_cases ifun <;> unfold executeAluOperation aluOp <;> dsimp only <;> split_ifs <;>
    refine ⟨rfl, ?_, rfl, fun r hr => Function.update_noteq hr _ _, rfl, rfl⟩ <;>
    simp only [Function.update_same]
  all_goals first
    | omega
    | exact (Nat.mod_eq_of_lt (Nat.and_lt_two_pow _ hA)).symm
    | exact (Nat.mod_eq_of_lt (Nat.xor_lt_two_pow hB hA)).symm
    | exact (Nat.mod_eq_of_lt (lt_of_le_of_lt (Nat.div_le_self _ _) hB)).symm
    | exact (Nat.mod_eq_of_lt (lt_of_le_of_lt (Nat.mod_le _ _) hB)).symm

theorem executeAluOperation_result_witness :
    aluState.WF ∧ modInstr.ifun ≤ 6 ∧ aluState.registerFile modInstr.rA ≠ 0 ∧
    (executeAluOperation stdHeader aluState modInstr).1 = true ∧
    (executeAluOperation stdHeader aluState modInstr).2.registerFile modInstr.rB =
      aluOp modInstr.ifun (aluState.registerFile modInstr.rB)
        (aluState.registerFile modInstr.rA) ∧
    (executeAluOperation stdHeader aluState modInstr).2.programCounter = modInstr.valP ∧
    (∀ r, r ≠ modInstr.rB →
      (executeAluOperation stdHeader aluState modInstr).2.registerFile r =
        aluState.registerFile r) ∧
    (executeAluOperation stdHeader aluState modInstr).2.programMap = aluState.programMap ∧
    (executeAluOperation stdHeader aluState modInstr).2.programSize = aluState.programSize :=
  ⟨aluState_WF, by decide, by decide,
    executeAluOperation_result stdHeader aluState modInstr aluState_WF (by decide)
      (fun _ => by decide)⟩

/-- C10 (fails on the code): `modq` with `B = 5`, `A = 3` writes the non-zero
result 2 to `rB`, yet the condition codes end equal to `CC_ZERO_MASK`: all three
branches of the MOD case set the zero flag. -/
theorem executeAluOperation_mod_sets_zero (h : header_t) :
    aluState.registerFile modInstr.rB = 5 ∧ aluState.registerFile modInstr.rA = 3 ∧
    (executeAluOperation h aluState modInstr).1 = true ∧
    (executeAluOperation h aluState modInstr).2.registerFile modInstr.rB = 2 ∧
    (executeAluOperation h aluState modInstr).2.conditionCodes = h.CC_ZERO_MASK := by
  refine ⟨rfl, rfl, rfl, rfl, ?_⟩
  simp [executeAluOperation, aluState, modInstr]

theorem shiftRight_63_eq_one_iff (r : Nat) (hr : r < 2 ^ 64) :
    r >>> 63 = 1 ↔ r.testBit 63 = true := by
  rw [Nat.testBit_to_div_mod, Nat.shiftRight_eq_div_pow]
  simp only [decide_eq_true_eq]
  omega

/-- C11 (fails on the code): `andq` with `B = A = 0x8000000000000000` writes
`0x8000000000000000` to `rB`, whose bit 63 is 1, yet the condition codes end
equal to 0, so the sign flag is clear: the AND/XOR/MUL/DIV/MOD cases test
`result < 0` on an unsigned value and never set `CC_SIGN_MASK`. -/
theorem executeAluOperation_and_sign_clear (h : header_t) :
    signState.registerFile andInstr.rB = 0x8000000000000000 ∧
    signState.registerFile andInstr.rA = 0x8000000000000000 ∧
    (executeAluOperation h signState andInstr).1 = true ∧
    (executeAluOperation h signState andInstr).2.registerFile andInstr.rB =
      0x8000000000000000 ∧
    Nat.testBit 0x8000000000000000 63 = true ∧
    (executeAluOperation h signState andInstr).2.conditionCodes = 0 ∧
    (executeAluOperation h signState andInstr).2.conditionCodes &&& h.CC_SIGN_MASK = 0 := by
  refine ⟨rfl, rfl, rfl, rfl, by decide, rfl, ?_⟩
  show 0 &&& h.CC_SIGN_MASK = 0
  exact Nat.zero_and _

/-- C12: for add (sub-operation 0) and subtract (sub-operation 1) on any
register values, `executeAluOperation` succeeds, writes `B op A` modulo
`2 ^ 64` to `rB`, sets `programCounter` to `valP`, and leaves the condition
codes exactly `CC_ZERO_MASK` when the result is 0, exactly `CC_SIGN_MASK` when
bit 63 of the result is 1, and 0 otherwise, whatever they were before. -/
theorem executeAluOperation_add_sub_flags (h : header_t) (s : machine_state_t)
    (i : y86_instruction_t) (hwf : s.WF) (hfun : i.ifun = 0 ∨ i.ifun = 1) :
    (executeAluOperation h s i).1 = true ∧
    (executeAluOperation h s i).2.registerFile i.rB =
      aluOp i.ifun (s.registerFile i.rB) (s.registerFile i.rA) ∧
    (executeAluOperation h s i).2.programCounter = i.valP ∧
    (executeAluOperation h s i).2.conditionCodes =
      (if aluOp i.ifun (s.registerFile i.rB) (s.registerFile i.rA) = 0 then h.CC_ZERO_MASK
       else if (aluOp i.ifun (s.registerFile i.rB) (s.registerFile i.rA)).testBit 63 = true
         then h.CC_SIGN_MASK
       else 0) := by
  have hA := hwf.reg_lt i.rA
  have hB := hwf.reg_lt i.rB
  obtain ⟨icode, ifun, rA, rB, valC, location, valP⟩ := i
  simp only at hfun hA hB ⊢
  rcases hfun with rfl | rfl
  · have hr : (s.registerFile rB + s.registerFile rA) % 2 ^ 64 < 2 ^ 64 :=
      Nat.mod_lt _ (by norm_num)
    have hbit := shiftRight_63_eq_one_iff _ hr
    unfold executeAluOperation aluOp
    dsimp only
    split_ifs <;> simp_all
  · have he : (s.registerFile rB + 2 ^ 64 - s.registerFile rA) % 2 ^ 64 =
        (((s.registerFile rB : Int) - (s.registerFile rA : Int)) % 2 ^ 64).toNat := by
      omega
    have hr : (s.registerFile rB + 2 ^ 64 - s.registerFile rA) % 2 ^ 64 < 2 ^ 64 :=
      Nat.mod_lt _ (by norm_num)
    have hbit := shiftRight_63_eq_one_iff _ hr
    unfold executeAluOperation aluOp
    dsimp only
    rw [← he]
    split_ifs <;> simp_all

theorem executeAluOperation_add_sub_flags_witness :
    (aluState.WF ∧ (addInstr.ifun = 0 ∨ addInstr.ifun = 1) ∧
      aluState.registerFile addInstr.rB = 5 ∧ aluState.registerFile addInstr.rA = 3 ∧
      (executeAluOperation stdHeader aluState addInstr).2.registerFile addInstr.rB = 8 ∧
      (executeAluOperation stdHeader aluState addInstr).2.conditionCodes = 0 ∧
      (executeAluOperation stdHeader aluState addInstr).2.programCounter =
        addInstr.location + 2) ∧
    (aluState.WF ∧ (subInstr.ifun = 0 ∨ subInstr.ifun = 1) ∧
      aluState.registerFile subInstr.rB = 3 ∧ aluState.registerFile subInstr.rA = 3 ∧
      (executeAluOperation stdHeader aluState subInstr).2.registerFile subInstr.rB = 0 ∧
      (executeAluOperation stdHeader aluState subInstr).2.conditionCodes =
        stdHeader.CC_ZERO_MASK ∧
      stdHeader.CC_ZERO_MASK &&& stdHeader.CC_SIGN_MASK = 0) := by
  have hadd := executeAluOperation_add_sub_flags stdHeader aluState addInstr aluState_WF
    (by decide)
  have hsub := executeAluOperation_add_sub_flags stdHeader aluState subInstr aluState_WF
    (by decide)
  refine ⟨⟨aluState_WF, by decide, by decide, by decide, ?_, ?_, ?_⟩,
    ⟨aluState_WF, by decide, by decide, by decide, ?_, ?_, by decide⟩⟩
  · rw [hadd.2.1]; decide
  · rw [hadd.2.2.2]; decide
  · rw [hadd.2.2.1]; decide
  · rw [hsub.2.1]; decide
  · rw [hsub.2.2.2]; decide

/-- C13 (as stated, fails): with condition codes `0x1` before the call and
sub-operation code 7, `executeAluOperation` returns 0 but the condition codes
afterwards are 0, not `0x1`: the state is not identical to the state before. -/
theorem executeAluOperation_bad_ifun_clears_flags :
    ¬ (6 < badAluInstr.ifun →
      (executeAluOperation stdHeader flagState badAluInstr).1 = false ∧
      (executeAluOperation stdHeader flagState badAluInstr).2.conditionCodes =
        flagState.conditionCodes) := by
  decide

/-- C13 (amended): for a sub-operation code outside 0..6, `executeAluOperation`
returns 0 and leaves registers, program counter and memory as they were; the
condition codes are cleared. -/
theorem executeAluOperation_bad_ifun (h : header_t) (s : machine_state_t)
    (i : y86_instruction_t) (hfun : 6 < i.ifun) :
    (executeAluOperation h s i).1 = false ∧
    (executeAluOperation h s i).2.registerFile = s.registerFile ∧
    (executeAluOperation h s i).2.programCounter = s.programCounter ∧
    (executeAluOperation h s i).2.programMap = s.programMap ∧
    (executeAluOperation h s i).2.programSize = s.programSize ∧
    (executeAluOperation h s i).2.conditionCodes = 0 ∧
    (executeAluOperation h s i).2 = { s with conditionCodes := 0 } := by
  obtain ⟨icode, ifun, rA, rB, valC, location, valP⟩ := i
  simp only at hfun
  obtain ⟨n, rfl⟩ : ∃ n, ifun = n + 7 := ⟨ifun - 7, by omega⟩
  exact ⟨rfl, rfl, rfl, rfl, rfl, rfl, rfl⟩

theorem executeAluOperation_bad_ifun_witness :
    6 < badAluInstr.ifun ∧
    (executeAluOperation stdHeader flagState badAluInstr).1 = false ∧
    (executeAluOperation stdHeader flagState badAluInstr).2.registerFile =
      flagState.registerFile ∧
    (executeAluOperation stdHeader flagState badAluInstr).2.programCounter =
      flagState.programCounter ∧
    (executeAluOperation stdHeader flagState badAluInstr).2.programMap =
      flagState.programMap ∧
    (executeAluOperation stdHeader flagState badAluInstr).2.programSize =
      flagState.programSize ∧
    (executeAluOperation stdHeader flagState badAluInstr).2.conditionCodes = 0 ∧
    (executeAluOperation stdHeader flagState badAluInstr).2 =
      { flagState with conditionCodes := 0 } :=
  ⟨by decide, executeAluOperation_bad_ifun stdHeader flagState badAluInstr (by decide)⟩

/-! ## Simple-operation unit: theorems -/

/-- C14 (as stated, fails): on a halt instruction `executeSimpleOperation`
returns 1, not 0: the `I_HALT` case is an empty `break` and `success` keeps its
initial value 1. -/
theorem executeSimpleOperation_halt_returns_one :
    haltInstr.icode = I_HALT ∧
    ¬ ((executeSimpleOperation stdHeader zeroState haltInstr).1 = false) := by
  decide

/-- C14 (amended): on a halt instruction `executeSimpleOperation` returns 1 and
leaves the machine state as it was (the failure codes `I_INVALID` and
`I_TOO_SHORT` being codes other than `I_HALT`). -/
theorem executeSimpleOperation_halt (h : header_t) (s : machine_state_t)
    (i : y86_instruction_t) (hi : i.icode = I_HALT)
    (hinv : h.I_INVALID ≠ I_HALT) (hshort : h.I_TOO_SHORT ≠ I_HALT) :
    (executeSimpleOperation h s i).1 = true ∧ (executeSimpleOperation h s i).2 = s := by
  unfold executeSimpleOperation
  have hfail : ¬ (i.icode = h.I_INVALID ∨ i.icode = h.I_TOO_SHORT) := by
    rw [hi]
    exact fun hc => hc.elim (fun e => hinv e.symm) (fun e => hshort e.symm)
  rw [if_neg hfail, if_pos hi]
  exact ⟨rfl, rfl⟩

theorem executeSimpleOperation_halt_witness :
    haltInstr.icode = I_HALT ∧ stdHeader.I_INVALID ≠ I_HALT ∧
    stdHeader.I_TOO_SHORT ≠ I_HALT ∧
    (executeSimpleOperation stdHeader zeroState haltInstr).1 = true ∧
    (executeSimpleOperation stdHeader zeroState haltInstr).2 = zeroState :=
  ⟨by decide, by decide, by decide,
    executeSimpleOperation_halt stdHeader zeroState haltInstr (by decide) (by decide)
      (by decide)⟩

/-- C15 (fails on the code): storing register value `0x80` with `rmmovq` at
effective address 0 of a sixteen-byte memory and loading it back with `mrmovq`
from the same base register and displacement succeeds both times, but the
destination register ends as `0xFFFFFFFFFFFFFF80`: the load goes through
`memReadQuadLE`, which sign-extends the byte `0x80`. -/
theorem executeSimpleOperation_store_load_high_bit :
    storeState.registerFile rmmovqInstr.rA = 0x80 ∧
    (storeState.registerFile rmmovqInstr.rB + rmmovqInstr.valC) % 2 ^ 64 + 8 ≤
      storeState.programSize ∧
    mrmovqInstr.rB = rmmovqInstr.rB ∧ mrmovqInstr.valC = rmmovqInstr.valC ∧
    (executeSimpleOperation stdHeader storeState rmmovqInstr).1 = true ∧
    (executeSimpleOperation stdHeader
      (executeSimpleOperation stdHeader storeState rmmovqInstr).2 mrmovqInstr).1 = true ∧
    (executeSimpleOperation stdHeader
      (executeSimpleOperation stdHeader storeState rmmovqInstr).2 mrmovqInstr).2.registerFile
        mrmovqInstr.rA = 0xFFFFFFFFFFFFFF80 := by
  decide

/-! ## Stack unit: theorems -/

theorem stackState_WF : stackState.WF :=
  ⟨by decide, fun _ => by simp [stackState], by decide,
    fun r => by simp only [stackState]; split_ifs <;> omega⟩

/-- C16: with the stack pointer `SP` in `8 .. programSize` and a source register
other than the stack pointer holding `v`, push succeeds, leaves the stack
pointer at `SP - 8`, stores byte `k` of `v` (least significant first) at
`SP - 8 + k` for `k` in `0..7`, leaves every other byte of memory and every
other register unchanged, and sets `programCounter` to `valP`. -/
theorem executeStackOperation_push (h : header_t) (s : machine_state_t)
    (i : y86_instruction_t) (hwf : s.WF) (hi : i.icode = I_PUSHQ)
    (hrA : i.rA ≠ h.R_RSP) (h8 : 8 ≤ s.registerFile h.R_RSP)
    (hle : s.registerFile h.R_RSP ≤ s.programSize) :
    (executeStackOperation h s i).1 = true ∧
    (executeStackOperation h s i).2.registerFile h.R_RSP = s.registerFile h.R_RSP - 8 ∧
    (∀ k, k < 8 →
      (executeStackOperation h s i).2.programMap (s.registerFile h.R_RSP - 8 + k) =
        s.registerFile i.rA / 256 ^ k % 256) ∧
    (∀ x, x < s.registerFile h.R_RSP - 8 ∨ s.registerFile h.R_RSP ≤ x →
      (executeStackOperation h s i).2.programMap x = s.programMap x) ∧
    (∀ r, r ≠ h.R_RSP → (executeStackOperation h s i).2.registerFile r = s.registerFile r) ∧
    (executeStackOperation h s i).2.programCounter = i.valP := by
  have hsz := hwf.size_lt
  have hS : (s.registerFile h.R_RSP + 2 ^ 64 - 8) % 2 ^ 64 = s.registerFile h.R_RSP - 8 := by
    omega
  unfold executeStackOperation
  rw [if_neg (by rw [hi]; decide), if_neg (by rw [hi]; decide), if_pos hi]
  have key := memWriteQuadLE_in_bounds
    { s with
      registerFile := Function.update s.registerFile h.R_RSP (s.registerFile h.R_RSP - 8) }
    (s.registerFile h.R_RSP - 8) (s.registerFile i.rA) hsz (by dsimp only; omega)
  rw [hS]
  dsimp only at key ⊢
  rw [Function.update_noteq hrA, key]
  dsimp only
  refine ⟨rfl, Function.update_same _ _ _, fun k hk => ?_, fun x hx => ?_,
    fun r hr => Function.update_noteq hr _ _, rfl⟩
  · rw [if_pos (by omega), Nat.add_sub_cancel_left]
  · rw [if_neg (by omega)]

theorem executeStackOperation_push_witness :
    stackState.WF ∧ pushInstr.icode = I_PUSHQ ∧ pushInstr.rA ≠ stdHeader.R_RSP ∧
    8 ≤ stackState.registerFile stdHeader.R_RSP ∧
    stackState.registerFile stdHeader.R_RSP ≤ stackState.programSize ∧
    stackState.registerFile stdHeader.R_RSP = 1000 ∧
    stackState.registerFile pushInstr.rA = 42 ∧
    (executeStackOperation stdHeader stackState pushInstr).2.registerFile stdHeader.R_RSP =
      992 ∧
    quadValueLE (executeStackOperation stdHeader stackState pushInstr).2 992 = 42 ∧
    (executeStackOperation stdHeader stackState pushInstr).1 = true ∧
    (executeStackOperation stdHeader stackState pushInstr).2.registerFile stdHeader.R_RSP =
      stackState.registerFile stdHeader.R_RSP - 8 ∧
    (∀ k, k < 8 →
      (executeStackOperation stdHeader stackState pushInstr).2.programMap
          (stackState.registerFile stdHeader.R_RSP - 8 + k) =
        stackState.registerFile pushInstr.rA / 256 ^ k % 256) ∧
    (∀ x, x < stackState.registerFile stdHeader.R_RSP - 8 ∨
        stackState.registerFile stdHeader.R_RSP ≤ x →
      (executeStackOperation stdHeader stackState pushInstr).2.programMap x =
        stackState.programMap x) ∧
    (∀ r, r ≠ stdHeader.R_RSP →
      (executeStackOperation stdHeader stackState pushInstr).2.registerFile r =
        stackState.registerFile r) ∧
    (executeStackOperation stdHeader stackState pushInstr).2.programCounter =
      pushInstr.valP :=
  ⟨stackState_WF, by decide, by decide, by decide, by decide, by decide, by decide,
    by decide, by decide,
    executeStackOperation_push stdHeader stackState pushInstr stackState_WF (by decide)
      (by decide) (by decide) (by decide)⟩

theorem lowStackState_WF : lowStackState.WF :=
  ⟨by decide, fun _ => by simp [lowStackState, stackState], by decide,
    fun r => by simp only [lowStackState]; split_ifs <;> omega⟩

theorem memWriteQuadLE_out_of_range (s : machine_state_t) (a v : Nat)
    (hsize : s.programSize + 8 < 2 ^ 64) (ha : a + 8 > s.programSize) :
    memWriteQuadLE s a v = (false, s) := by
  have hc : a < 0 ∨ a > s.programSize ∨ (a + 8) % 2 ^ 64 > s.programSize := by
    omega
  unfold memWriteQuadLE
  rw [if_pos hc]

theorem executeStackOperation_call_eq (h : header_t) (s : machine_state_t)
    (i : y86_instruction_t) (hwf : s.WF) (hi : i.icode = I_CALL)
    (h8 : 8 ≤ s.registerFile h.R_RSP) (hle : s.registerFile h.R_RSP ≤ s.programSize) :
    executeStackOperation h s i =
      (true,
        { programMap := fun x =>
            if s.registerFile h.R_RSP - 8 ≤ x ∧ x < s.registerFile h.R_RSP - 8 + 8 then
              i.valP / 256 ^ (x - (s.registerFile h.R_RSP - 8)) % 256
            else s.programMap x,
          programSize := s.programSize,
          programCounter := i.valC,
          registerFile :=
            Function.update s.registerFile h.R_RSP (s.registerFile h.R_RSP - 8),
          conditionCodes := s.conditionCodes }) := by
  have hsz := hwf.size_lt
  have hS : (({ s with programCounter := i.valP } : machine_state_t).registerFile h.R_RSP
      + 2 ^ 64 - 8) % 2 ^ 64 = s.registerFile h.R_RSP - 8 := by
    show (s.registerFile h.R_RSP + 2 ^ 64 - 8) % 2 ^ 64 = s.registerFile h.R_RSP - 8
    omega
  have key := memWriteQuadLE_in_bounds
    { s with
      programCounter := i.valP,
      registerFile := Function.update s.registerFile h.R_RSP (s.registerFile h.R_RSP - 8) }
    (s.registerFile h.R_RSP - 8) i.valP hsz (by dsimp only; omega)
  unfold executeStackOperation
  rw [if_pos hi]
  conv => zeta
  rw [hS]
  dsimp only at key ⊢
  rw [key]

/-- C17: with the stack pointer `SP` in `8 .. programSize`, a call with target
`valC` and next address `valP` succeeds, leaves the stack pointer at `SP - 8`,
stores byte `k` of `valP` (least significant first) at `SP - 8 + k` for `k` in
`0..7`, leaves every other byte of memory and every other register unchanged,
and sets `programCounter` to `valC`. -/
theorem executeStackOperation_call (h : header_t) (s : machine_state_t)
    (i : y86_instruction_t) (hwf : s.WF) (hi : i.icode = I_CALL)
    (h8 : 8 ≤ s.registerFile h.R_RSP) (hle : s.registerFile h.R_RSP ≤ s.programSize) :
    (executeStackOperation h s i).1 = true ∧
    (executeStackOperation h s i).2.registerFile h.R_RSP = s.registerFile h.R_RSP - 8 ∧
    (∀ k, k < 8 →
      (executeStackOperation h s i).2.programMap (s.registerFile h.R_RSP - 8 + k) =
        i.valP / 256 ^ k % 256) ∧
    (∀ x, x < s.registerFile h.R_RSP - 8 ∨ s.registerFile h.R_RSP ≤ x →
      (executeStackOperation h s i).2.programMap x = s.programMap x) ∧
    (executeStackOperation h s i).2.programCounter = i.valC ∧
    (∀ r, r ≠ h.R_RSP → (executeStackOperation h s i).2.registerFile r = s.registerFile r) := by
  rw [executeStackOperation_call_eq h s i hwf hi h8 hle]
  refine ⟨rfl, Function.update_same _ _ _, fun k hk => ?_, fun x hx => ?_, rfl,
    fun r hr => Function.update_noteq hr _ _⟩
  · show (if _ then _ else _) = _
    rw [if_pos (by omega), Nat.add_sub_cancel_left]
  · show (if _ then _ else _) = _
    rw [if_neg (by omega)]

theorem executeStackOperation_call_witness :
    stackState.WF ∧ callInstr.icode = I_CALL ∧
    8 ≤ stackState.registerFile stdHeader.R_RSP ∧
    stackState.registerFile stdHeader.R_RSP ≤ stackState.programSize ∧
    (executeStackOperation stdHeader stackState callInstr).2.registerFile stdHeader.R_RSP =
      992 ∧
    quadValueLE (executeStackOperation stdHeader stackState callInstr).2 992 =
      callInstr.valP ∧
    (executeStackOperation stdHeader stackState callInstr).1 = true ∧
    (executeStackOperation stdHeader stackState callInstr).2.registerFile stdHeader.R_RSP =
      stackState.registerFile stdHeader.R_RSP - 8 ∧
    (∀ k, k < 8 →
      (executeStackOperation stdHeader stackState callInstr).2.programMap
          (stackState.registerFile stdHeader.R_RSP - 8 + k) =
        callInstr.valP / 256 ^ k % 256) ∧
    (∀ x, x < stackState.registerFile stdHeader.R_RSP - 8 ∨
        stackState.registerFile stdHeader.R_RSP ≤ x →
      (executeStackOperation stdHeader stackState callInstr).2.programMap x =
        stackState.programMap x) ∧
    (executeStackOperation stdHeader stackState callInstr).2.programCounter =
      callInstr.valC ∧
    (∀ r, r ≠ stdHeader.R_RSP →
      (executeStackOperation stdHeader stackState callInstr).2.registerFile r =
        stackState.registerFile r) :=
  ⟨stackState_WF, by decide, by decide, by decide, by decide, by decide,
    executeStackOperation_call stdHeader stackState callInstr stackState_WF (by decide)
      (by decide) (by decide)⟩

/-- C18 (fails on the code): with the stack pointer at 1000 in a 1024-byte
memory, a call whose next address is `0x80` followed by a return succeeds both
times and restores the stack pointer to 1000, but `programCounter` ends as
`0xFFFFFFFFFFFFFF80` instead of `0x80`: the return reads the saved address
through `memReadQuadLE`, which sign-extends the byte `0x80`. -/
theorem executeStackOperation_call_ret_high_bit :
    stackState.registerFile stdHeader.R_RSP = 1000 ∧ stackState.programSize = 1024 ∧
    callAt77Instr.valP = 0x80 ∧
    (executeStackOperation stdHeader stackState callAt77Instr).1 = true ∧
    (executeStackOperation stdHeader
      (executeStackOperation stdHeader stackState callAt77Instr).2 retInstr).1 = true ∧
    (executeStackOperation stdHeader
      (executeStackOperation stdHeader stackState callAt77Instr).2 retInstr).2.registerFile
        stdHeader.R_RSP = 1000 ∧
    (executeStackOperation stdHeader
      (executeStackOperation stdHeader stackState callAt77Instr).2 retInstr).2.programCounter =
        0xFFFFFFFFFFFFFF80 := by
  decide

theorem executeStackOperation_call_out_of_bounds_eq (h : header_t) (s : machine_state_t)
    (i : y86_instruction_t) (hwf : s.WF) (hi : i.icode = I_CALL)
    (hoob : (s.registerFile h.R_RSP + 2 ^ 64 - 8) % 2 ^ 64 + 8 > s.programSize) :
    executeStackOperation h s i =
      (false,
        { s with
          programCounter := i.valP,
          registerFile := Function.update s.registerFile h.R_RSP
            ((s.registerFile h.R_RSP + 2 ^ 64 - 8) % 2 ^ 64) }) := by
  have hsz := hwf.size_lt
  have hS : (({ s with programCounter := i.valP } : machine_state_t).registerFile h.R_RSP
      + 2 ^ 64 - 8) % 2 ^ 64 = (s.registerFile h.R_RSP + 2 ^ 64 - 8) % 2 ^ 64 := rfl
  unfold executeStackOperation
  rw [if_pos hi]
  conv => zeta
  rw [hS]
  generalize (s.registerFile h.R_RSP + 2 ^ 64 - 8) % 2 ^ 64 = a at hoob ⊢
  rw [memWriteQuadLE_out_of_range _ a _ (by exact hsz) (by exact hoob)]

theorem executeStackOperation_push_out_of_bounds_eq (h : header_t) (s : machine_state_t)
    (i : y86_instruction_t) (hwf : s.WF) (hi : i.icode = I_PUSHQ)
    (hoob : (s.registerFile h.R_RSP + 2 ^ 64 - 8) % 2 ^ 64 + 8 > s.programSize) :
    executeStackOperation h s i =
      (false,
        { s with
          registerFile := Function.update s.registerFile h.R_RSP
            ((s.registerFile h.R_RSP + 2 ^ 64 - 8) % 2 ^ 64) }) := by
  have hsz := hwf.size_lt
  unfold executeStackOperation
  rw [if_neg (by rw [hi]; decide), if_neg (by rw [hi]; decide), if_pos hi]
  conv => zeta
  generalize (s.registerFile h.R_RSP + 2 ^ 64 - 8) % 2 ^ 64 = a at hoob ⊢
  rw [memWriteQuadLE_out_of_range _ a _ (by exact hsz) (by exact hoob)]

/-- C19: when the quadword store at `(SP - 8) mod 2 ^ 64` is out of bounds,
call and push return 0, leave the stack pointer at `(SP - 8) mod 2 ^ 64`, and
leave memory and every other register unchanged. -/
theorem executeStackOperation_store_out_of_bounds (h : header_t) (s : machine_state_t)
    (i : y86_instruction_t) (hwf : s.WF) (hi : i.icode = I_CALL ∨ i.icode = I_PUSHQ)
    (hoob : (s.registerFile h.R_RSP + 2 ^ 64 - 8) % 2 ^ 64 + 8 > s.programSize) :
    (executeStackOperation h s i).1 = false ∧
    (executeStackOperation h s i).2.registerFile h.R_RSP =
      (s.registerFile h.R_RSP + 2 ^ 64 - 8) % 2 ^ 64 ∧
    (∀ r, r ≠ h.R_RSP → (executeStackOperation h s i).2.registerFile r = s.registerFile r) ∧
    (executeStackOperation h s i).2.programMap = s.programMap := by
  rcases hi with hi | hi
  · rw [executeStackOperation_call_out_of_bounds_eq h s i hwf hi hoob]
    exact ⟨rfl, Function.update_same _ _ _, fun r hr => Function.update_noteq hr _ _, rfl⟩
  · rw [executeStackOperation_push_out_of_bounds_eq h s i hwf hi hoob]
    exact ⟨rfl, Function.update_same _ _ _, fun r hr => Function.update_noteq hr _ _, rfl⟩

theorem executeStackOperation_store_out_of_bounds_witness :
    lowStackState.WF ∧ (pushInstr.icode = I_CALL ∨ pushInstr.icode = I_PUSHQ) ∧
    (lowStackState.registerFile stdHeader.R_RSP + 2 ^ 64 - 8) % 2 ^ 64 + 8 >
      lowStackState.programSize ∧
    (executeStackOperation stdHeader lowStackState pushInstr).1 = false ∧
    (executeStackOperation stdHeader lowStackState pushInstr).2.registerFile
        stdHeader.R_RSP =
      (lowStackState.registerFile stdHeader.R_RSP + 2 ^ 64 - 8) % 2 ^ 64 ∧
    (∀ r, r ≠ stdHeader.R_RSP →
      (executeStackOperation stdHeader lowStackState pushInstr).2.registerFile r =
        lowStackState.registerFile r) ∧
    (executeStackOperation stdHeader lowStackState pushInstr).2.programMap =
      lowStackState.programMap :=
  ⟨lowStackState_WF, by decide, by decide,
    executeStackOperation_store_out_of_bounds stdHeader lowStackState pushInstr
      lowStackState_WF (by decide) (by decide)⟩

/-! ## Fetch / decode: register designators -/

/-- C20: when `fetchInstruction` returns 1, with `r` the byte at
`programCounter + 1`: for register-move, memory-store, memory-load and
arithmetic/logic `rA` is the high nibble and `rB` the low nibble of `r`; for
immediate-load `rA` is `R_NONE` and `rB` the low nibble of `r`; for push and
pop `rA` is the high nibble of `r` and `rB` is `R_NONE`. -/
theorem fetchInstruction_registers (h : header_t) (s : machine_state_t)
    (instr : y86_instruction_t) (hwf : s.WF)
    (hc : (fetchInstruction h s instr).1 = true) :
    ((s.programMap s.programCounter / 16 = I_RRMVXX ∨
        s.programMap s.programCounter / 16 = I_RMMOVQ ∨
        s.programMap s.programCounter / 16 = I_MRMOVQ ∨
        s.programMap s.programCounter / 16 = I_OPQ) →
      (fetchInstruction h s instr).2.2.rA = s.programMap (s.programCounter + 1) / 16 ∧
      (fetchInstruction h s instr).2.2.rB = s.programMap (s.programCounter + 1) % 16) ∧
    (s.programMap s.programCounter / 16 = I_IRMOVQ →
      (fetchInstruction h s instr).2.2.rA = R_NONE ∧
      (fetchInstruction h s instr).2.2.rB = s.programMap (s.programCounter + 1) % 16) ∧
    ((s.programMap s.programCounter / 16 = I_PUSHQ ∨
        s.programMap s.programCounter / 16 = I_POPQ) →
      (fetchInstruction h s instr).2.2.rA = s.programMap (s.programCounter + 1) / 16 ∧
      (fetchInstruction h s instr).2.2.rB = R_NONE) := by
  obtain ⟨hsz, hbyte, hpc, -⟩ := hwf
  unfold fetchInstruction at hc ⊢
  cases hrd : memReadByte s s.programCounter with
  | none => simp [hrd] at hc
  | some OPFUN =>
    obtain ⟨hle, rfl⟩ := (memReadByte_eq_some_iff _ _ _).1 hrd
    have hmod : (s.programCounter + 1) % 2 ^ 64 = s.programCounter + 1 :=
      Nat.mod_eq_of_lt (by omega)
    rw [hrd] at hc
    simp only [high_nibble _ (hbyte _), low_nibble, hmod] at hc ⊢
    have hk : s.programMap s.programCounter / 16 < 16 := by
      have := hbyte s.programCounter
      omega
    generalize s.programMap s.programCounter / 16 = k at hc hk ⊢
    interval_cases k <;>
      simp [I_HALT, I_NOP, I_RRMVXX, I_IRMOVQ, I_RMMOVQ, I_MRMOVQ, I_OPQ, I_JXX, I_CALL,
        I_RET, I_PUSHQ, I_POPQ, R_NONE] at hc ⊢
    all_goals (try split at hc) <;> (try split at hc)
    all_goals (try simp at hc)
    all_goals simp only [memReadByte_eq_some_iff, memReadQuadLE_eq_some_iff] at *
    all_goals simp [*, Nat.shiftRight_eq_div_pow]
    exact low_nibble _

theorem pushqState_WF : pushqState.WF :=
  ⟨by decide, fun a => by simp only [pushqState]; split_ifs <;> omega, by decide,
    fun _ => by simp [pushqState, zeroState]⟩

theorem fetchInstruction_registers_witness :
    (irmovqState.WF ∧ (fetchInstruction stdHeader irmovqState zeroInstr).1 = true ∧
      irmovqState.programMap irmovqState.programCounter / 16 = I_IRMOVQ ∧
      (fetchInstruction stdHeader irmovqState zeroInstr).2.2.rA = R_NONE ∧
      (fetchInstruction stdHeader irmovqState zeroInstr).2.2.rB =
        irmovqState.programMap (irmovqState.programCounter + 1) % 16) ∧
    (pushqState.WF ∧ (fetchInstruction stdHeader pushqState zeroInstr).1 = true ∧
      pushqState.programMap pushqState.programCounter / 16 = I_PUSHQ ∧
      (fetchInstruction stdHeader pushqState zeroInstr).2.2.rA =
        pushqState.programMap (pushqState.programCounter + 1) / 16 ∧
      (fetchInstruction stdHeader pushqState zeroInstr).2.2.rB = R_NONE) :=
  ⟨⟨irmovqState_WF, by decide, by decide,
      (fetchInstruction_registers stdHeader irmovqState zeroInstr irmovqState_WF
        (by decide)).2.1 (by decide)⟩,
    ⟨pushqState_WF, by decide, by decide,
      (fetchInstruction_registers stdHeader pushqState zeroInstr pushqState_WF
        (by decide)).2.2 (Or.inl (by decide))⟩⟩

/-! ## Stack unit: the stack pointer as operand -/

theorem executeStackOperation_push_rsp_eq (h : header_t) (s : machine_state_t)
    (i : y86_instruction_t) (hwf : s.WF) (hi : i.icode = I_PUSHQ)
    (hrA : i.rA = h.R_RSP) (h8 : 8 ≤ s.registerFile h.R_RSP)
    (hle : s.registerFile h.R_RSP ≤ s.programSize) :
    executeStackOperation h s i =
      (true,
        { programMap := fun x =>
            if s.registerFile h.R_RSP - 8 ≤ x ∧ x < s.registerFile h.R_RSP - 8 + 8 then
              (s.registerFile h.R_RSP - 8) / 256 ^ (x - (s.registerFile h.R_RSP - 8)) % 256
            else s.programMap x,
          programSize := s.programSize,
          programCounter := i.valP,
          registerFile :=
            Function.update s.registerFile h.R_RSP (s.registerFile h.R_RSP - 8),
          conditionCodes := s.conditionCodes }) := by
  have hsz := hwf.size_lt
  have hS : (s.registerFile h.R_RSP + 2 ^ 64 - 8) % 2 ^ 64 = s.registerFile h.R_RSP - 8 := by
    omega
  have key := memWriteQuadLE_in_bounds
    { s with
      registerFile := Function.update s.registerFile h.R_RSP (s.registerFile h.R_RSP - 8) }
    (s.registerFile h.R_RSP - 8) (s.registerFile h.R_RSP - 8) hsz (by dsimp only; omega)
  unfold executeStackOperation
  rw [if_neg (by rw [hi]; decide), if_neg (by rw [hi]; decide), if_pos hi]
  conv => zeta
  rw [hS, hrA]
  dsimp only at key ⊢
  rw [Function.update_same, key]

theorem executeStackOperation_pop_rsp_eq (h : header_t) (s : machine_state_t)
    (i : y86_instruction_t) (hwf : s.WF) (hi : i.icode = I_POPQ)
    (hrA : i.rA = h.R_RSP) (hle : s.registerFile h.R_RSP + 8 ≤ s.programSize) :
    executeStackOperation h s i =
      (true,
        { s with
          registerFile := Function.update s.registerFile h.R_RSP
            (s.registerFile h.R_RSP + 8),
          programCounter := i.valP }) := by
  have hsz := hwf.size_lt
  have hmod : (s.registerFile h.R_RSP + 8) % 2 ^ 64 = s.registerFile h.R_RSP + 8 :=
    Nat.mod_eq_of_lt (by omega)
  have hread : memReadQuadLE s (s.registerFile h.R_RSP) =
      some ((List.range 8).foldl (memReadQuadLE_step s (s.registerFile h.R_RSP)) 0) :=
    (memReadQuadLE_eq_some_iff _ _ _).2 ⟨⟨by omega, by omega⟩, rfl⟩
  unfold executeStackOperation
  rw [if_neg (by rw [hi]; decide), if_neg (by rw [hi]; decide),
    if_neg (by rw [hi]; decide), if_pos hi]
  conv => zeta
  rw [hread, hmod, hrA]
  dsimp only
  rw [Function.update_idem]

/-- C21: when the source register of push is the stack pointer and the store is
in bounds (`SP` in `8 .. programSize`), `executeStackOperation` stores the
already-decremented value `SP - 8` at address `SP - 8` (byte `k` of `SP - 8` at
`SP - 8 + k`) and leaves the stack pointer at `SP - 8`; when the destination
register of pop is the stack pointer and the read at `SP` is in bounds, the
value read from memory is discarded: the register file afterwards is the one
before with the stack pointer set to `SP + 8`. -/
theorem executeStackOperation_rsp_operand (h : header_t) (s : machine_state_t)
    (i : y86_instruction_t) (hwf : s.WF) (hrA : i.rA = h.R_RSP) :
    (i.icode = I_PUSHQ → 8 ≤ s.registerFile h.R_RSP →
      s.registerFile h.R_RSP ≤ s.programSize →
      (executeStackOperation h s i).1 = true ∧
      (executeStackOperation h s i).2.registerFile h.R_RSP = s.registerFile h.R_RSP - 8 ∧
      (∀ k, k < 8 →
        (executeStackOperation h s i).2.programMap (s.registerFile h.R_RSP - 8 + k) =
          (s.registerFile h.R_RSP - 8) / 256 ^ k % 256) ∧
      (executeStackOperation h s i).2.programCounter = i.valP) ∧
    (i.icode = I_POPQ → s.registerFile h.R_RSP + 8 ≤ s.programSize →
      (executeStackOperation h s i).1 = true ∧
      (executeStackOperation h s i).2.registerFile h.R_RSP = s.registerFile h.R_RSP + 8 ∧
      (executeStackOperation h s i).2.registerFile =
        Function.update s.registerFile h.R_RSP (s.registerFile h.R_RSP + 8) ∧
      (executeStackOperation h s i).2.programMap = s.programMap ∧
      (executeStackOperation h s i).2.programCounter = i.valP) := by
  constructor
  · intro hi h8 hle
    rw [executeStackOperation_push_rsp_eq h s i hwf hi hrA h8 hle]
    refine ⟨rfl, Function.update_same _ _ _, fun k hk => ?_, rfl⟩
    show (if _ then _ else _) = _
    rw [if_pos (by omega), Nat.add_sub_cancel_left]
  · intro hi hle
    rw [executeStackOperation_pop_rsp_eq h s i hwf hi hrA hle]
    exact ⟨rfl, Function.update_same _ _ _, rfl, rfl, rfl⟩

theorem executeStackOperation_rsp_operand_witness :
    stackState.WF ∧ pushRspInstr.rA = stdHeader.R_RSP ∧ popRspInstr.rA = stdHeader.R_RSP ∧
    stackState.registerFile stdHeader.R_RSP = 1000 ∧ stackState.programSize = 1024 ∧
    (pushRspInstr.icode = I_PUSHQ ∧ 8 ≤ stackState.registerFile stdHeader.R_RSP ∧
      stackState.registerFile stdHeader.R_RSP ≤ stackState.programSize ∧
      quadValueLE (executeStackOperation stdHeader stackState pushRspInstr).2 992 = 992 ∧
      (executeStackOperation stdHeader stackState pushRspInstr).1 = true ∧
      (executeStackOperation stdHeader stackState pushRspInstr).2.registerFile
          stdHeader.R_RSP =
        stackState.registerFile stdHeader.R_RSP - 8 ∧
      (∀ k, k < 8 →
        (executeStackOperation stdHeader stackState pushRspInstr).2.programMap
            (stackState.registerFile stdHeader.R_RSP - 8 + k) =
          (stackState.registerFile stdHeader.R_RSP - 8) / 256 ^ k % 256) ∧
      (executeStackOperation stdHeader stackState pushRspInstr).2.programCounter =
        pushRspInstr.valP) ∧
    (popRspInstr.icode = I_POPQ ∧
      stackState.registerFile stdHeader.R_RSP + 8 ≤ stackState.programSize ∧
      (executeStackOperation stdHeader stackState popRspInstr).1 = true ∧
      (executeStackOperation stdHeader stackState popRspInstr).2.registerFile
          stdHeader.R_RSP =
        stackState.registerFile stdHeader.R_RSP + 8 ∧
      (executeStackOperation stdHeader stackState popRspInstr).2.registerFile =
        Function.update stackState.registerFile stdHeader.R_RSP
          (stackState.registerFile stdHeader.R_RSP + 8) ∧
      (executeStackOperation stdHeader stackState popRspInstr).2.programMap =
        stackState.programMap ∧
      (executeStackOperation stdHeader stackState popRspInstr).2.programCounter =
        popRspInstr.valP) :=
  ⟨stackState_WF, by decide, by decide, by decide, by decide,
    ⟨by decide, by decide, by decide, by decide,
      (executeStackOperation_rsp_operand stdHeader stackState pushRspInstr stackState_WF
        (by decide)).1 (by decide) (by decide) (by decide)⟩,
    ⟨by decide, by decide,
      (executeStackOperation_rsp_operand stdHeader stackState popRspInstr stackState_WF
        (by decide)).2 (by decide) (by decide)⟩⟩

end Y86
